import Mathlib

/-!
Shallow embedding of the ledger core of blockchain-simple-rust.

The authoritative sources are src/blockchain.rs (the Blockchain state and
its single mutating operation update_with_block) and src/output.rs (the
Output byte view). The collaborator code consumed by blockchain.rs
(block.rs, transaction.rs, the digest function, check_difficulty and
u64_bytes) is not among the provided sources; those parts are modelled
from the specification and marked as such.

The call update_with_block is embedded as a total function returning
Option (Blockchain × Except BlockValidationError Unit): a some result is
the typed outcome of the Rust call together with the state it leaves
behind, while none models a panic. The binding
let prev_block = &self.blocks[i - 1] at the top of update_with_block is
evaluated before any validation check; when the chain is empty the usize
subtraction i - 1 underflows and the indexing panics, so the none branch
is exactly the empty-chain case.
-/

/-- Modelled from the spec: a Hash is a fixed-length byte sequence,
equality-comparable and usable as a set key. Bytes are modelled as Nat. -/
abbrev Hash := List Nat

/-- Modelled from the spec: an Address, reduced to the byte sequence that
the collaborator method as_bytes extracts from it. -/
abbrev Address := List Nat

/-- Modelled from the spec: the deterministic fixed-width big-endian byte
encoding of an unsigned 64-bit value, used for Output hashing. -/
def u64_bytes (value : Nat) : List Nat :=
  (List.range 8).map fun k => value / 2 ^ (8 * (7 - k)) % 256

/-- Output from src/output.rs: a recipient address and a value. -/
structure Output where
  to_addr : Address
  value : Nat
  deriving DecidableEq

/-- Output bytes from src/output.rs: the address bytes followed by the
fixed-width encoding of the value. -/
def Output.bytes (o : Output) : List Nat :=
  o.to_addr ++ u64_bytes o.value

/-- Modelled from the spec: a Transaction (transaction.rs is not among the
provided sources) is an ordered sequence of inputs and an ordered sequence
of outputs; each input references a prior output, carrying its address and
value so that both the input hashes and the input values are derivable. -/
structure Transaction where
  inputs : List Output
  outputs : List Output
  deriving DecidableEq

/-- Modelled from the spec: the external collaborators consumed by the
core: a digest over arbitrary byte sequences, the difficulty predicate
check_difficulty, and the block digest used by the method call
block.hash(), a pure function of the block fields other than the stored
hash field (index, timestamp, prev_block_hash, difficulty, transactions). -/
structure Collab where
  digest : List Nat → Hash
  check_difficulty : Hash → Nat → Bool
  blockHash : Nat → Nat → Hash → Nat → List Transaction → Hash

/-- Modelled from the spec: a Block record (block.rs is not among the
provided sources): index (a u32 value), timestamp, prev_block_hash, the
stored self-identifying hash field, the declared difficulty target, and
the ordered transaction list. -/
structure Block where
  index : Nat
  timestamp : Nat
  prev_block_hash : Hash
  hash : Hash
  difficulty : Nat
  transactions : List Transaction
  deriving DecidableEq

/-- Modelled from the spec: the method call block.hash() recomputes the
digest from the block fields other than the stored hash field. -/
def Block.hashCalc (c : Collab) (b : Block) : Hash :=
  c.blockHash b.index b.timestamp b.prev_block_hash b.difficulty b.transactions

/-- Modelled from the spec: the method call output.hash(), the digest of
the Output byte view of src/output.rs. -/
def Output.hashCalc (c : Collab) (o : Output) : Hash :=
  c.digest o.bytes

/-- Modelled from the spec: the set of input-reference hashes of a
transaction. -/
def Transaction.input_hashes (c : Collab) (t : Transaction) : Finset Hash :=
  (t.inputs.map (Output.hashCalc c)).toFinset

/-- Modelled from the spec: the set of output hashes of a transaction. -/
def Transaction.output_hashes (c : Collab) (t : Transaction) : Finset Hash :=
  (t.outputs.map (Output.hashCalc c)).toFinset

/-- Modelled from the spec: the sum of the input values of a transaction. -/
def Transaction.input_value (t : Transaction) : Nat :=
  (t.inputs.map Output.value).sum

/-- Modelled from the spec: the sum of the output values of a transaction. -/
def Transaction.output_value (t : Transaction) : Nat :=
  (t.outputs.map Output.value).sum

/-- Modelled from the spec: the coinbase predicate, true of the
distinguished input-less transaction. -/
def Transaction.is_coinbase (t : Transaction) : Bool :=
  t.inputs.isEmpty

deriving instance DecidableEq for Except

/-- BlockValidationError from src/blockchain.rs. -/
inductive BlockValidationError where
  | MismatchedIndex
  | InvalidHash
  | AchronologicalTimestamps
  | MismatchedPreviousHash
  | InvalidGenesisBlockFormat
  | InvalidInput
  | InsufficientInputValue
  | InvalidCoinbaseTransaction
  deriving DecidableEq

/-- Blockchain from src/blockchain.rs: the accepted block sequence and the
unspent-output set. -/
structure Blockchain where
  blocks : List Block
  unspent_outputs : Finset Hash
  deriving DecidableEq

/-- Blockchain::new from src/blockchain.rs: both components empty. -/
def Blockchain.new : Blockchain :=
  { blocks := [], unspent_outputs := ∅ }

/-- The per-transaction settlement loop of Blockchain::update_with_block,
src/blockchain.rs lines 63 to 86: scan the non-coinbase transactions in
listed order; reject with InvalidInput when an input hash is outside the
committed unspent set or already in the block-local spent set, reject with
InsufficientInputValue when the output value exceeds the input value, and
otherwise accumulate the spent set, the created set and the total fee.
The accumulator total_fee += fee at line 81 is a Rust u64: the addition is
reduced modulo 2 ^ 64, following the wrap-around of a release build (a
debug build panics at the overflow instead); the subtraction
input_value - output_value cannot underflow, since the value check just
before it guarantees output_value ≤ input_value. -/
def Blockchain.settleLoop (c : Collab) (unspent : Finset Hash) :
    List Transaction → Finset Hash → Finset Hash → Nat →
      Except BlockValidationError (Finset Hash × Finset Hash × Nat)
  | [], block_spent, block_created, total_fee =>
    .ok (block_spent, block_created, total_fee)
  | transaction :: rest, block_spent, block_created, total_fee =>
    if ¬(Transaction.input_hashes c transaction \ unspent = ∅)
        ∨ ¬(Transaction.input_hashes c transaction ∩ block_spent = ∅) then
      .error .InvalidInput
    else if Transaction.output_value transaction > Transaction.input_value transaction then
      .error .InsufficientInputValue
    else
      Blockchain.settleLoop c unspent rest
        (block_spent ∪ Transaction.input_hashes c transaction)
        (block_created ∪ Transaction.output_hashes c transaction)
        ((total_fee + (Transaction.input_value transaction - Transaction.output_value transaction))
          % 2 ^ 64)

/-- The transaction part of Blockchain::update_with_block,
src/blockchain.rs lines 55 to 100: split_first on the transaction list (an
empty list skips settlement entirely), the coinbase predicate on the first
transaction, the settlement loop over the remaining ones, the coinbase
value versus total fee comparison, the retain and extend update of the
unspent-output set, and the final push of the block. -/
def Blockchain.applyTransactions (c : Collab) (st : Blockchain) (block : Block) :
    Blockchain × Except BlockValidationError Unit :=
  match block.transactions with
  | [] => ({ st with blocks := st.blocks ++ [block] }, .ok ())
  | coinbase :: transactions =>
    if coinbase.is_coinbase = false then
      (st, .error .InvalidCoinbaseTransaction)
    else
      match Blockchain.settleLoop c st.unspent_outputs transactions ∅ ∅ 0 with
      | .error e => (st, .error e)
      | .ok (block_spent, block_created, total_fee) =>
        if coinbase.output_value < total_fee then
          (st, .error .InvalidCoinbaseTransaction)
        else
          ({ blocks := st.blocks ++ [block],
             unspent_outputs :=
               (st.unspent_outputs \ block_spent)
                 ∪ (block_created ∪ Transaction.output_hashes c coinbase) },
           .ok ())

/-- Blockchain::update_with_block from src/blockchain.rs, lines 29 to 101.
The binding let prev_block = &self.blocks[i - 1] is evaluated before any
check; with i = blocks.len() it denotes the last block when i is at least
one, and panics on the empty chain (usize underflow followed by an
out-of-bounds access), modelled by the none branch of the match. The
comparison block.index != i as u32 truncates the length to 32 bits. -/
def Blockchain.update_with_block (c : Collab) (st : Blockchain) (block : Block) :
    Option (Blockchain × Except BlockValidationError Unit) :=
  match st.blocks.getLast? with
  | none => none
  | some prev_block =>
    some (
      if block.index ≠ st.blocks.length % 2 ^ 32 then
        (st, .error .MismatchedIndex)
      else if c.check_difficulty (Block.hashCalc c block) block.difficulty = false then
        (st, .error .InvalidHash)
      else if st.blocks.length ≠ 0 then
        if block.timestamp ≤ prev_block.timestamp then
          (st, .error .AchronologicalTimestamps)
        else if block.prev_block_hash ≠ prev_block.hash then
          (st, .error .MismatchedPreviousHash)
        else
          Blockchain.applyTransactions c st block
      else
        if block.prev_block_hash ≠ List.replicate 32 0 then
          (st, .error .InvalidGenesisBlockFormat)
        else
          Blockchain.applyTransactions c st block)

/-- States reachable from Blockchain::new by sequences of successful
update_with_block calls. -/
inductive Blockchain.Reachable (c : Collab) : Blockchain → Prop where
  | new : Blockchain.Reachable c Blockchain.new
  | step {st st2 : Blockchain} {b : Block} :
      Blockchain.Reachable c st →
      Blockchain.update_with_block c st b = some (st2, .ok ()) →
      Blockchain.Reachable c st2

/-- All output hashes created by the transactions of a block. -/
def Block.createdHashes (c : Collab) (b : Block) : Finset Hash :=
  b.transactions.foldr (fun t acc => Transaction.output_hashes c t ∪ acc) ∅

/-- All input-reference hashes consumed by the transactions of a block. -/
def Block.spentHashes (c : Collab) (b : Block) : Finset Hash :=
  b.transactions.foldr (fun t acc => Transaction.input_hashes c t ∪ acc) ∅

/-- All output hashes created across a sequence of blocks. -/
def chainCreated (c : Collab) (blocks : List Block) : Finset Hash :=
  blocks.foldr (fun b acc => Block.createdHashes c b ∪ acc) ∅

/-- All input-reference hashes consumed across a sequence of blocks. -/
def chainSpent (c : Collab) (blocks : List Block) : Finset Hash :=
  blocks.foldr (fun b acc => Block.spentHashes c b ∪ acc) ∅

/-- Within the settlement scan, the first transaction that fails any check
fails the input check: every transaction before it passes both the input
and the value checks, and its own failure is either an input hash outside
the unspent set or one already consumed earlier in the block. -/
def firstFailureIsInput (c : Collab) (unspent : Finset Hash) :
    List Transaction → Finset Hash → Prop
  | [], _ => False
  | t :: rest, block_spent =>
    (¬(Transaction.input_hashes c t \ unspent = ∅)
      ∨ ¬(Transaction.input_hashes c t ∩ block_spent = ∅))
    ∨ ((Transaction.input_hashes c t \ unspent = ∅)
      ∧ (Transaction.input_hashes c t ∩ block_spent = ∅)
      ∧ Transaction.output_value t ≤ Transaction.input_value t
      ∧ firstFailureIsInput c unspent rest (block_spent ∪ Transaction.input_hashes c t))

/-! Concrete collaborator instances and concrete ledger data, used by the
witnesses, counterexamples and failing-input evaluations below. -/

/-- A concrete collaborator instance: the identity digest, an
always-satisfied difficulty predicate, and a constant all-zero block
digest. -/
def cTest : Collab :=
  { digest := fun bs => bs,
    check_difficulty := fun _ _ => true,
    blockHash := fun _ _ _ _ _ => List.replicate 32 0 }

/-- A concrete collaborator instance whose difficulty predicate demands a
leading zero byte and whose block digest is the all-zero hash: a recomputed
block digest always satisfies the difficulty. -/
def cZero : Collab :=
  { digest := fun bs => bs,
    check_difficulty := fun h _ => decide (h.head? = some 0),
    blockHash := fun _ _ _ _ _ => List.replicate 32 0 }

/-- A concrete collaborator instance whose difficulty predicate demands a
leading zero byte and whose block digest is the all-one hash: a recomputed
block digest never satisfies the difficulty. -/
def cOne : Collab :=
  { digest := fun bs => bs,
    check_difficulty := fun h _ => decide (h.head? = some 0),
    blockHash := fun _ _ _ _ _ => List.replicate 32 1 }

/-- A concrete spendable output. -/
def o1 : Output := { to_addr := [1], value := 10 }

/-- A concrete previously accepted block forming a one-block chain. -/
def prevB : Block :=
  { index := 0, timestamp := 0, prev_block_hash := List.replicate 32 0,
    hash := [7], difficulty := 0, transactions := [] }

/-- A concrete non-empty ledger: one accepted block and one unspent output
hash. -/
def stU : Blockchain :=
  { blocks := [prevB], unspent_outputs := {Output.hashCalc cTest o1} }

/-- A coinbase transaction with no outputs. -/
def cb0 : Transaction := { inputs := [], outputs := [] }

/-- A coinbase transaction with a single output of value 50. -/
def cb1 : Transaction := { inputs := [], outputs := [{ to_addr := [9], value := 50 }] }

/-- A coinbase transaction with a single output of value 6. -/
def cbBig : Transaction := { inputs := [], outputs := [{ to_addr := [9], value := 6 }] }

/-- A transaction spending o1 but creating more value than it consumes. -/
def t1 : Transaction := { inputs := [o1], outputs := [{ to_addr := [2], value := 20 }] }

/-- A transaction whose single input hash is not an unspent output of stU. -/
def t2 : Transaction := { inputs := [{ to_addr := [3], value := 5 }], outputs := [] }

/-- A non-coinbase transaction (it has an input). -/
def t1nc : Transaction := { inputs := [o1], outputs := [] }

/-- A transaction spending o1 (value 10) into an output of value 4,
leaving a fee of 6. -/
def tSpend : Transaction := { inputs := [o1], outputs := [{ to_addr := [2], value := 4 }] }

/-- A genesis candidate carrying a single coinbase transaction, exactly the
concrete scenario of the spec. -/
def g1 : Block :=
  { index := 0, timestamp := 0, prev_block_hash := List.replicate 32 0,
    hash := List.replicate 32 0, difficulty := 0, transactions := [cb1] }

/-- A genesis candidate with an empty transaction list. -/
def g10 : Block :=
  { index := 0, timestamp := 0, prev_block_hash := List.replicate 32 0,
    hash := [3], difficulty := 0, transactions := [] }

/-- An arbitrary candidate block used against an empty ledger. -/
def gW2 : Block :=
  { index := 3, timestamp := 5, prev_block_hash := [4], hash := [2],
    difficulty := 9, transactions := [] }

/-- A candidate for stU whose index is wrong. -/
def bBadIdx : Block :=
  { index := 5, timestamp := 1, prev_block_hash := [7], hash := [1],
    difficulty := 0, transactions := [] }

/-- A candidate for stU whose settlement hits an overspending transaction
before a transaction with an invalid input. -/
def b6 : Block :=
  { index := 1, timestamp := 1, prev_block_hash := [7], hash := [1],
    difficulty := 0, transactions := [cb0, t1, t2] }

/-- A candidate for stU whose first non-coinbase transaction has an
invalid input. -/
def b6w : Block :=
  { index := 1, timestamp := 1, prev_block_hash := [7], hash := [1],
    difficulty := 0, transactions := [cb0, t2] }

/-- A candidate for stU with a wrong index and a non-coinbase first
transaction. -/
def b7 : Block :=
  { index := 5, timestamp := 1, prev_block_hash := [7], hash := [1],
    difficulty := 0, transactions := [t1nc] }

/-- A candidate for stU passing all structural checks up to the coinbase
predicate, with a non-coinbase first transaction. -/
def b7w : Block :=
  { index := 1, timestamp := 1, prev_block_hash := [7], hash := [1],
    difficulty := 0, transactions := [t1nc] }

/-- A fully valid candidate for stU: a coinbase collecting exactly the fee
of its one spending transaction. -/
def b8 : Block :=
  { index := 1, timestamp := 1, prev_block_hash := [7], hash := [1],
    difficulty := 0, transactions := [cbBig, tSpend] }

/-- A candidate for stU whose stored hash field fails the difficulty of
cZero while its recomputed digest satisfies it. -/
def b9 : Block :=
  { index := 1, timestamp := 1, prev_block_hash := [7], hash := [1],
    difficulty := 5, transactions := [] }

/-- A candidate for stU whose recomputed digest fails the difficulty of
cOne. -/
def b9w : Block :=
  { index := 1, timestamp := 1, prev_block_hash := [7], hash := [1],
    difficulty := 0, transactions := [] }

/-- An unspent output of value 2 ^ 63. -/
def oA : Output := { to_addr := [1], value := 2 ^ 63 }

/-- A second unspent output of value 2 ^ 63. -/
def oB : Output := { to_addr := [2], value := 2 ^ 63 }

/-- A non-empty ledger holding the two large outputs oA and oB. -/
def stW : Blockchain :=
  { blocks := [prevB],
    unspent_outputs := {Output.hashCalc cTest oA, Output.hashCalc cTest oB} }

/-- A transaction spending oA entirely into fee (no outputs). -/
def txA : Transaction := { inputs := [oA], outputs := [] }

/-- A transaction spending oB entirely into fee (no outputs). -/
def txB : Transaction := { inputs := [oB], outputs := [] }

/-- A candidate for stW whose two spending transactions leave fees of
2 ^ 63 each, so that the u64 fee accumulator wraps to 0. -/
def b8c : Block :=
  { index := 1, timestamp := 1, prev_block_hash := [7], hash := [1],
    difficulty := 0, transactions := [cb0, txA, txB] }

/-! Helper lemmas shared by the claim theorems. -/

/-- On a ledger whose chain is empty, update_with_block panics: the
indexing blocks[i - 1] with i = 0 is reached before any check. -/
lemma update_with_block_empty (c : Collab) (st : Blockchain) (b : Block)
    (h : st.blocks = []) : Blockchain.update_with_block c st b = none := by
  have hl : st.blocks.getLast? = none := by rw [h]; rfl
  simp [Blockchain.update_with_block, hl]

/-- The only state reachable from Blockchain::new is Blockchain::new
itself, because update_with_block never succeeds on the empty chain. -/
lemma reachable_eq_new {c : Collab} {st : Blockchain}
    (h : Blockchain.Reachable c st) : st = Blockchain.new := by
  induction h with
  | new => rfl
  | step hr hupd ih =>
    subst ih
    rw [update_with_block_empty c Blockchain.new _ rfl] at hupd
    cases hupd

/-- The transaction part of update_with_block returns the incoming state
unchanged whenever it reports an error. -/
lemma applyTransactions_error {c : Collab} {st : Blockchain} {b : Block}
    {st2 : Blockchain} {e : BlockValidationError}
    (h : Blockchain.applyTransactions c st b = (st2, Except.error e)) :
    st2 = st := by
  unfold Blockchain.applyTransactions at h
  split at h
  · exact absurd (congrArg Prod.snd h) (by simp)
  · split at h
    · exact (congrArg Prod.fst h).symm
    · split at h
      · exact (congrArg Prod.fst h).symm
      · split at h
        · exact (congrArg Prod.fst h).symm
        · exact absurd (congrArg Prod.snd h) (by simp)

/-- On a non-empty chain, once the index, difficulty, timestamp and
previous-hash checks pass, update_with_block is the transaction part. -/
lemma update_reaches_apply {c : Collab} {st : Blockchain} {b : Block} {prev : Block}
    (hlast : st.blocks.getLast? = some prev)
    (hidx : b.index = st.blocks.length % 2 ^ 32)
    (hdiff : c.check_difficulty (Block.hashCalc c b) b.difficulty = true)
    (hts : prev.timestamp < b.timestamp)
    (hprev : b.prev_block_hash = prev.hash) :
    Blockchain.update_with_block c st b =
      some (Blockchain.applyTransactions c st b) := by
  have hne : st.blocks ≠ [] := by
    intro hh
    rw [hh] at hlast
    cases hlast
  have hlen : st.blocks.length ≠ 0 := by
    simpa [List.length_eq_zero] using hne
  simp only [Blockchain.update_with_block, hlast]
  rw [if_neg (by simp [hidx]), if_neg (by simp [hdiff]), if_pos hlen,
    if_neg (by omega), if_neg (by simp [hprev])]

/-- When the first failing transaction of the settlement scan fails the
input check, the scan reports InvalidInput. -/
lemma settleLoop_firstFailure (c : Collab) (unspent : Finset Hash) :
    ∀ (txs : List Transaction) (block_spent block_created : Finset Hash)
      (total_fee : Nat),
      firstFailureIsInput c unspent txs block_spent →
      Blockchain.settleLoop c unspent txs block_spent block_created total_fee =
        Except.error BlockValidationError.InvalidInput := by
  intro txs
  induction txs with
  | nil => intro bs bc tf hf; exact absurd hf (by simp [firstFailureIsInput])
  | cons t rest ih =>
    intro bs bc tf hf
    rcases hf with hbad | ⟨h1, h2, h3, hrec⟩
    · unfold Blockchain.settleLoop
      rw [if_pos hbad]
    · unfold Blockchain.settleLoop
      rw [if_neg (by tauto), if_neg (by omega)]
      exact ih _ _ _ hrec

/-- An extra concrete candidate for stU with an empty transaction list. -/
def b10w : Block :=
  { index := 1, timestamp := 2, prev_block_hash := [7], hash := [5],
    difficulty := 0, transactions := [] }

/-! The claims. -/

/-- C1: the spec requires that, starting from the freshly created empty
ledger, the genesis scenario (index 0, all-zero prev_block_hash, a single
coinbase transaction, difficulty satisfied) is accepted, leaving a chain
of length 1 and the coinbase output hashes in the unspent-output set. The
code instead evaluates self.blocks[i - 1] with i = 0 before any check and
panics on the empty chain, so the call never returns: evaluating the
embedding at the exact genesis candidate reaches the panic branch. -/
theorem c1_genesis_scenario_panics :
    Blockchain.update_with_block cTest Blockchain.new g1 = none := rfl

/-- C2: on any ledger whose chain is empty, update_with_block evaluates
blocks[i - 1] before any validation check and panics, so it never returns
a typed result in that state and no block is ever accepted starting from
Blockchain::new. -/
theorem c2_empty_chain_never_returns (c : Collab) (st : Blockchain) (b : Block)
    (h : st.blocks = []) :
    Blockchain.update_with_block c st b = none ∧
      ∀ r : Blockchain × Except BlockValidationError Unit,
        Blockchain.update_with_block c st b ≠ some r := by
  have hn := update_with_block_empty c st b h
  exact ⟨hn, fun r hr => by rw [hn] at hr; cases hr⟩

/-- C2 witness: the empty-chain panic instantiated at Blockchain::new and
a concrete candidate block. -/
theorem c2_empty_chain_never_returns_witness :
    Blockchain.update_with_block cTest Blockchain.new gW2 = none :=
  (c2_empty_chain_never_returns cTest Blockchain.new gW2 rfl).1

/-- C3: whenever update_with_block returns a typed error, the block list
and the unspent-output set of the resulting state are exactly those of the
incoming state: rejection never has a partial effect. -/
theorem c3_rejection_leaves_state_unchanged (c : Collab) (st : Blockchain)
    (b : Block) (st2 : Blockchain) (e : BlockValidationError)
    (h : Blockchain.update_with_block c st b = some (st2, Except.error e)) :
    st2.blocks = st.blocks ∧ st2.unspent_outputs = st.unspent_outputs := by
  have final : st2 = st →
      st2.blocks = st.blocks ∧ st2.unspent_outputs = st.unspent_outputs := by
    intro hh
    rw [hh]
    exact ⟨rfl, rfl⟩
  unfold Blockchain.update_with_block at h
  split at h
  · cases h
  · have h2 := Option.some.inj h
    split at h2
    · exact final (congrArg Prod.fst h2).symm
    · split at h2
      · exact final (congrArg Prod.fst h2).symm
      · split at h2
        · split at h2
          · exact final (congrArg Prod.fst h2).symm
          · split at h2
            · exact final (congrArg Prod.fst h2).symm
            · exact final (applyTransactions_error h2)
        · split at h2
          · exact final (congrArg Prod.fst h2).symm
          · exact final (applyTransactions_error h2)

/-- C3 witness: a concrete rejection (wrong index against the one-block
ledger stU) leaving the state unchanged. -/
theorem c3_rejection_leaves_state_unchanged_witness :
    Blockchain.update_with_block cTest stU bBadIdx =
        some (stU, Except.error BlockValidationError.MismatchedIndex) ∧
      stU.blocks = stU.blocks ∧ stU.unspent_outputs = stU.unspent_outputs :=
  ⟨rfl, c3_rejection_leaves_state_unchanged cTest stU bBadIdx stU
      BlockValidationError.MismatchedIndex rfl⟩

/-- C4: every state reachable from Blockchain::new by successful
update_with_block calls has its unspent-output set equal to the union of
all output hashes created by its accepted blocks minus the union of all
input-reference hashes consumed by them. Because update_with_block panics
on the empty chain, the initial state is in fact the only reachable state,
and there the equation holds with all three sets empty. -/
theorem c4_utxo_reconstruction_invariant (c : Collab) (st : Blockchain)
    (h : Blockchain.Reachable c st) :
    st.unspent_outputs = chainCreated c st.blocks \ chainSpent c st.blocks := by
  have hh := reachable_eq_new h
  subst hh
  simp [Blockchain.new, chainCreated, chainSpent]

/-- C4 witness: the reconstruction equation instantiated at the initial
state, the one reachable state. -/
theorem c4_utxo_reconstruction_invariant_witness :
    Blockchain.Reachable cTest Blockchain.new ∧
      Blockchain.new.unspent_outputs =
        chainCreated cTest Blockchain.new.blocks
          \ chainSpent cTest Blockchain.new.blocks :=
  ⟨Blockchain.Reachable.new,
    c4_utxo_reconstruction_invariant cTest Blockchain.new Blockchain.Reachable.new⟩

/-- C5: every state reachable from Blockchain::new by successful
update_with_block calls satisfies the chain invariants: stored index equal
to position, all-zero prev_block_hash at position 0, and hash linkage with
strictly increasing timestamps at every later position. Because
update_with_block panics on the empty chain, the initial state is the only
reachable state and all three parts hold vacuously over its empty chain. -/
theorem c5_chain_linkage_invariant (c : Collab) (st : Blockchain)
    (h : Blockchain.Reachable c st) :
    (∀ i (hi : i < st.blocks.length), (st.blocks.get ⟨i, hi⟩).index = i) ∧
      (∀ h0 : 0 < st.blocks.length,
        (st.blocks.get ⟨0, h0⟩).prev_block_hash = List.replicate 32 0) ∧
      (∀ i (hi : i < st.blocks.length), 0 < i →
        (st.blocks.get ⟨i, hi⟩).prev_block_hash
            = (st.blocks.get ⟨i - 1, by omega⟩).hash
          ∧ (st.blocks.get ⟨i - 1, by omega⟩).timestamp
            < (st.blocks.get ⟨i, hi⟩).timestamp) := by
  have hh := reachable_eq_new h
  subst hh
  refine ⟨fun i hi => absurd hi (by simp [Blockchain.new]),
    fun h0 => absurd h0 (by simp [Blockchain.new]),
    fun i hi h0 => absurd hi (by simp [Blockchain.new])⟩

/-- C5 witness: the chain invariants instantiated at the initial state,
the one reachable state. -/
theorem c5_chain_linkage_invariant_witness :
    Blockchain.Reachable cTest Blockchain.new ∧
      ((∀ i (hi : i < Blockchain.new.blocks.length),
          (Blockchain.new.blocks.get ⟨i, hi⟩).index = i) ∧
        (∀ h0 : 0 < Blockchain.new.blocks.length,
          (Blockchain.new.blocks.get ⟨0, h0⟩).prev_block_hash
            = List.replicate 32 0) ∧
        (∀ i (hi : i < Blockchain.new.blocks.length), 0 < i →
          (Blockchain.new.blocks.get ⟨i, hi⟩).prev_block_hash
              = (Blockchain.new.blocks.get ⟨i - 1, by omega⟩).hash
            ∧ (Blockchain.new.blocks.get ⟨i - 1, by omega⟩).timestamp
              < (Blockchain.new.blocks.get ⟨i, hi⟩).timestamp)) :=
  ⟨Blockchain.Reachable.new,
    c5_chain_linkage_invariant cTest Blockchain.new Blockchain.Reachable.new⟩

/-- C6 counterexample: the block b6 passes every structural check and its
transaction t2 has an input hash outside the unspent-output set, yet the
call rejects with InsufficientInputValue, raised by the earlier
overspending transaction t1, not with InvalidInput as the claim states. -/
theorem c6_counterexample_value_failure_preempts :
    b6.transactions = [cb0, t1, t2] ∧
      cb0.is_coinbase = true ∧
      b6.index = stU.blocks.length % 2 ^ 32 ∧
      ¬(Transaction.input_hashes cTest t2 \ stU.unspent_outputs = ∅) ∧
      Blockchain.update_with_block cTest stU b6 =
        some (stU, Except.error BlockValidationError.InsufficientInputValue) :=
  ⟨rfl, rfl, rfl, by decide, by decide⟩

/-- C6 amended: on a non-empty ledger, for a candidate passing the
structural checks, if some non-coinbase transaction has an input hash
outside the unspent-output set or already consumed earlier in the block,
and every non-coinbase transaction listed before it passes both the input
and the value checks, then update_with_block rejects with InvalidInput. -/
theorem c6_amended_first_failure_invalid_input (c : Collab) (st : Blockchain)
    (b : Block) (prev : Block) (cb : Transaction) (rest : List Transaction)
    (hlast : st.blocks.getLast? = some prev)
    (hidx : b.index = st.blocks.length % 2 ^ 32)
    (hdiff : c.check_difficulty (Block.hashCalc c b) b.difficulty = true)
    (hts : prev.timestamp < b.timestamp)
    (hprev : b.prev_block_hash = prev.hash)
    (htx : b.transactions = cb :: rest)
    (hcb : cb.is_coinbase = true)
    (hfail : firstFailureIsInput c st.unspent_outputs rest ∅) :
    Blockchain.update_with_block c st b =
      some (st, Except.error BlockValidationError.InvalidInput) := by
  rw [update_reaches_apply hlast hidx hdiff hts hprev]
  simp only [Blockchain.applyTransactions, htx,
    settleLoop_firstFailure c st.unspent_outputs rest ∅ ∅ 0 hfail]
  rw [if_neg (by simp [hcb])]

/-- C6 witness: the amended statement instantiated at a candidate whose
first non-coinbase transaction spends an output absent from the
unspent-output set. -/
theorem c6_amended_first_failure_invalid_input_witness :
    Blockchain.update_with_block cTest stU b6w =
      some (stU, Except.error BlockValidationError.InvalidInput) :=
  c6_amended_first_failure_invalid_input cTest stU b6w prevB cb0 [t2]
    rfl rfl rfl (by decide) rfl rfl rfl (Or.inl (Or.inl (by decide)))

/-- C7 counterexample: the block b7 has a non-empty transaction list whose
first transaction is not a coinbase, the ledger stU is non-empty, yet the
call rejects with MismatchedIndex, because the index check precedes the
coinbase check; the rejection is not InvalidCoinbaseTransaction as the
claim states. -/
theorem c7_counterexample_index_preempts_coinbase :
    stU.blocks ≠ [] ∧
      b7.transactions = [t1nc] ∧
      t1nc.is_coinbase = false ∧
      Blockchain.update_with_block cTest stU b7 =
        some (stU, Except.error BlockValidationError.MismatchedIndex) ∧
      BlockValidationError.MismatchedIndex ≠
        BlockValidationError.InvalidCoinbaseTransaction :=
  ⟨by decide, rfl, rfl, by decide, by decide⟩

/-- C7 amended: on a non-empty ledger, a candidate block whose index,
difficulty, timestamp and previous-hash checks pass and whose non-empty
transaction list starts with a non-coinbase transaction is rejected with
InvalidCoinbaseTransaction, independently of the rest of the block. -/
theorem c7_amended_coinbase_rejection (c : Collab) (st : Blockchain)
    (b : Block) (prev : Block) (hd : Transaction) (rest : List Transaction)
    (hlast : st.blocks.getLast? = some prev)
    (hidx : b.index = st.blocks.length % 2 ^ 32)
    (hdiff : c.check_difficulty (Block.hashCalc c b) b.difficulty = true)
    (hts : prev.timestamp < b.timestamp)
    (hprev : b.prev_block_hash = prev.hash)
    (htx : b.transactions = hd :: rest)
    (hcb : hd.is_coinbase = false) :
    Blockchain.update_with_block c st b =
      some (st, Except.error BlockValidationError.InvalidCoinbaseTransaction) := by
  rw [update_reaches_apply hlast hidx hdiff hts hprev]
  simp only [Blockchain.applyTransactions, htx]
  rw [if_pos hcb]

/-- C7 witness: the amended statement instantiated at a structurally valid
candidate whose first transaction has an input. -/
theorem c7_amended_coinbase_rejection_witness :
    Blockchain.update_with_block cTest stU b7w =
      some (stU, Except.error BlockValidationError.InvalidCoinbaseTransaction) :=
  c7_amended_coinbase_rejection cTest stU b7w prevB t1nc []
    rfl rfl rfl (by decide) rfl rfl rfl

/-- C8 counterexample: the block b8c passes every structural, input and
value check and its coinbase output value (0) is strictly less than the
mathematical sum of (input value minus output value) over its non-coinbase
transactions (2 ^ 63 + 2 ^ 63 = 2 ^ 64, every individual value a valid
u64), yet the call accepts the block instead of returning
InvalidCoinbaseTransaction: the u64 fee accumulator wraps to 0 and the
comparison 0 < 0 fails. -/
theorem c8_counterexample_fee_accumulator_wraps :
    cb0.output_value <
        (Transaction.input_value txA - Transaction.output_value txA)
          + (Transaction.input_value txB - Transaction.output_value txB) ∧
      b8c.transactions = [cb0, txA, txB] ∧
      cb0.is_coinbase = true ∧
      Blockchain.update_with_block cTest stW b8c =
        some ({ blocks := stW.blocks ++ [b8c], unspent_outputs := ∅ },
          Except.ok ()) :=
  ⟨by decide, rfl, rfl, by decide⟩

/-- C8 amended: on a non-empty ledger, for a candidate passing the
structural checks whose non-coinbase transactions all pass the input and
value checks (the settlement loop succeeds, its total fee being the sum of
the per-transaction fees as accumulated by the wrapping u64 counter), the
call rejects with InvalidCoinbaseTransaction exactly when the coinbase
output value is strictly below that accumulated total fee; otherwise the
block is accepted and the coinbase output hashes are among the hashes
added to the unspent-output set. -/
theorem c8_coinbase_fee_check (c : Collab) (st : Blockchain) (b : Block)
    (prev : Block) (cb : Transaction) (rest : List Transaction)
    (spent created : Finset Hash) (fee : Nat)
    (hlast : st.blocks.getLast? = some prev)
    (hidx : b.index = st.blocks.length % 2 ^ 32)
    (hdiff : c.check_difficulty (Block.hashCalc c b) b.difficulty = true)
    (hts : prev.timestamp < b.timestamp)
    (hprev : b.prev_block_hash = prev.hash)
    (htx : b.transactions = cb :: rest)
    (hcb : cb.is_coinbase = true)
    (hloop : Blockchain.settleLoop c st.unspent_outputs rest ∅ ∅ 0 =
      Except.ok (spent, created, fee)) :
    (cb.output_value < fee →
      Blockchain.update_with_block c st b =
        some (st, Except.error BlockValidationError.InvalidCoinbaseTransaction))
    ∧ (fee ≤ cb.output_value →
      ∃ st2, Blockchain.update_with_block c st b = some (st2, Except.ok ()) ∧
        Transaction.output_hashes c cb ⊆ st2.unspent_outputs) := by
  rw [update_reaches_apply hlast hidx hdiff hts hprev]
  simp only [Blockchain.applyTransactions, htx, hloop]
  rw [if_neg (by simp [hcb])]
  constructor
  · intro hlt
    rw [if_pos hlt]
  · intro hge
    rw [if_neg (by omega)]
    refine ⟨_, rfl, ?_⟩
    intro x hx
    exact Finset.mem_union_right _ (Finset.mem_union_right _ hx)

/-- C8 witness: the fee check instantiated at a fully valid candidate
whose coinbase collects exactly the fee of its one spending transaction. -/
theorem c8_coinbase_fee_check_witness :
    ∃ st2, Blockchain.update_with_block cTest stU b8 = some (st2, Except.ok ()) ∧
      Transaction.output_hashes cTest cbBig ⊆ st2.unspent_outputs :=
  (c8_coinbase_fee_check cTest stU b8 prevB cbBig [tSpend]
      (∅ ∪ Transaction.input_hashes cTest tSpend)
      (∅ ∪ Transaction.output_hashes cTest tSpend)
      (0 + (Transaction.input_value tSpend - Transaction.output_value tSpend))
      rfl rfl rfl (by decide) rfl rfl rfl (by decide)).2 (by decide)

/-- C9 counterexample: under the collaborator cZero the stored hash field
of b9 fails its declared difficulty while the recomputed digest satisfies
it; b9 has the correct index on the non-empty ledger stU, and the call
accepts the block instead of returning InvalidHash: the difficulty check
uses the recomputed digest block.hash(), not the stored self-reported hash
field. -/
theorem c9_counterexample_stored_hash_ignored :
    cZero.check_difficulty b9.hash b9.difficulty = false ∧
      b9.index = stU.blocks.length % 2 ^ 32 ∧
      Blockchain.update_with_block cZero stU b9 =
        some ({ blocks := stU.blocks ++ [b9],
                unspent_outputs := stU.unspent_outputs }, Except.ok ()) :=
  ⟨by decide, rfl, by decide⟩

/-- C9 amended: on a non-empty ledger, for a candidate whose index equals
the chain length, if the recomputed digest block.hash() does not satisfy
the difficulty value declared by the block itself (which the validator
takes on trust and never re-derives), update_with_block returns
InvalidHash. -/
theorem c9_amended_recomputed_hash_difficulty (c : Collab) (st : Blockchain)
    (b : Block) (prev : Block)
    (hlast : st.blocks.getLast? = some prev)
    (hidx : b.index = st.blocks.length % 2 ^ 32)
    (hdiff : c.check_difficulty (Block.hashCalc c b) b.difficulty = false) :
    Blockchain.update_with_block c st b =
      some (st, Except.error BlockValidationError.InvalidHash) := by
  simp only [Blockchain.update_with_block, hlast]
  rw [if_neg (by simp [hidx]), if_pos hdiff]

/-- C9 witness: the amended statement instantiated with the collaborator
cOne, whose recomputed block digest never satisfies the difficulty. -/
theorem c9_amended_recomputed_hash_difficulty_witness :
    Blockchain.update_with_block cOne stU b9w =
      some (stU, Except.error BlockValidationError.InvalidHash) :=
  c9_amended_recomputed_hash_difficulty cOne stU b9w prevB rfl rfl rfl

/-- C10 counterexample: the genesis candidate g10 has an empty transaction
list, index 0 equal to the chain length, the all-zero prev_block_hash and
a satisfied difficulty, yet on the empty ledger update_with_block panics
(the claim states it returns success and appends the block). -/
theorem c10_counterexample_genesis_empty_panics :
    g10.transactions = [] ∧
      g10.index = Blockchain.new.blocks.length % 2 ^ 32 ∧
      g10.prev_block_hash = List.replicate 32 0 ∧
      cTest.check_difficulty (Block.hashCalc cTest g10) g10.difficulty = true ∧
      Blockchain.update_with_block cTest Blockchain.new g10 = none :=
  ⟨rfl, rfl, rfl, rfl, rfl⟩

/-- C10 amended: on a non-empty ledger, a candidate block with an empty
transaction list that passes the index, difficulty, timestamp and
previous-hash checks is accepted: the block is appended and the
unspent-output set is left completely unchanged. On the empty ledger the
call panics instead of accepting a genesis block. -/
theorem c10_amended_empty_transactions_accepted (c : Collab) (st : Blockchain)
    (b : Block) (prev : Block)
    (hlast : st.blocks.getLast? = some prev)
    (hidx : b.index = st.blocks.length % 2 ^ 32)
    (hdiff : c.check_difficulty (Block.hashCalc c b) b.difficulty = true)
    (hts : prev.timestamp < b.timestamp)
    (hprev : b.prev_block_hash = prev.hash)
    (htx : b.transactions = []) :
    Blockchain.update_with_block c st b =
      some ({ blocks := st.blocks ++ [b],
              unspent_outputs := st.unspent_outputs }, Except.ok ()) := by
  rw [update_reaches_apply hlast hidx hdiff hts hprev]
  simp only [Blockchain.applyTransactions, htx]

/-- C10 witness: the amended statement instantiated at a concrete
transaction-less candidate for the one-block ledger stU. -/
theorem c10_amended_empty_transactions_accepted_witness :
    Blockchain.update_with_block cTest stU b10w =
      some ({ blocks := stU.blocks ++ [b10w],
              unspent_outputs := stU.unspent_outputs }, Except.ok ()) :=
  c10_amended_empty_transactions_accepted cTest stU b10w prevB
    rfl rfl rfl (by decide) rfl rfl
